import Mathlib

/-!
Verification of the codealive-installer adapter layer.

The definitions below are a shallow embedding of `src/clients.ts` and
`src/auth.ts` (and the split per-client variants of the same code).
Configuration files are modelled at the JSON-value level; the tolerant
JSON editing library (`jsonc-parser`, an external dependency whose code
is not part of this repository) is modelled from the specification of
the Config Editor (spec section 4.1): `upsert` sets
`parsed[prop][key] = value` creating `prop` when absent, and `remove`
deletes the key, leaving everything else unchanged.
-/

namespace CodealiveInstaller

/-- JSON values, the payload of adapter config files.  Numbers are
modelled as integers: no claim depends on fractional values. -/
inductive Json where
  | null : Json
  | bool (b : Bool) : Json
  | num (n : Int) : Json
  | str (s : String) : Json
  | arr (elems : List Json) : Json
  | obj (fields : List (String × Json)) : Json

/-- First-occurrence lookup in a JSON object's field list (JS object
property access for parsed JSON, where keys are unique). -/
def lookupField : List (String × Json) → String → Option Json
  | [], _ => none
  | (k, v) :: rest, key => if k = key then some v else lookupField rest key

/-- Replace the value of field `key` in place, or append the field when
absent — the edit `jsonc-parser` computes for a property assignment. -/
def setField : List (String × Json) → String → Json → List (String × Json)
  | [], key, v => [(key, v)]
  | (k, w) :: rest, key, v =>
      if k = key then (k, v) :: rest else (k, w) :: setField rest key v

/-- Delete field `key` (first occurrence); no-op when absent. -/
def removeField : List (String × Json) → String → List (String × Json)
  | [], _ => []
  | (k, w) :: rest, key =>
      if k = key then rest else (k, w) :: removeField rest key

theorem lookupField_setField_self (fs : List (String × Json)) (k : String)
    (v : Json) : lookupField (setField fs k v) k = some v := by
  induction fs with
  | nil => simp [setField, lookupField]
  | cons hd tl ih =>
      obtain ⟨k0, w⟩ := hd
      by_cases h : k0 = k
      · subst h
        simp [setField, lookupField]
      · simp [setField, lookupField, h, ih]

theorem lookupField_setField_ne (fs : List (String × Json)) (k k' : String)
    (v : Json) (h : k' ≠ k) :
    lookupField (setField fs k v) k' = lookupField fs k' := by
  induction fs with
  | nil => simp [setField, lookupField, Ne.symm h]
  | cons hd tl ih =>
      obtain ⟨k0, w⟩ := hd
      by_cases h0 : k0 = k
      · subst h0
        simp [setField, lookupField, Ne.symm h]
      · simp [setField, lookupField, h0, ih]

theorem lookupField_removeField_ne (fs : List (String × Json)) (k k' : String)
    (h : k' ≠ k) :
    lookupField (removeField fs k) k' = lookupField fs k' := by
  induction fs with
  | nil => simp [removeField]
  | cons hd tl ih =>
      obtain ⟨k0, w⟩ := hd
      by_cases h0 : k0 = k
      · subst h0
        simp [removeField, lookupField, Ne.symm h]
      · simp [removeField, lookupField, h0, ih]

/-- Constants from `src/constants.ts`: the canonical integration name. -/
def MCP_SERVER_NAME : String := "codealive"

/-- Constants from `src/constants.ts`: the launch command of the MCP server. -/
def MCP_COMMAND : String := "uvx"

/-- Constants from `src/constants.ts`: the launch arguments. -/
def MCP_ARGS : List String := ["codealive-mcp"]

/-- The object written under `prop` by an upsert at `[prop, key]`: the
existing nested object with `key` set, or a fresh one-field object when
`prop` is absent or does not hold an object. -/
def upsertInner (fields : List (String × Json)) (prop key : String)
    (v : Json) : List (String × Json) :=
  match lookupField fields prop with
  | some (Json.obj sub) => setField sub key v
  | _ => [(key, v)]

/-- Modelled from the spec: the tolerant-JSON editor's `upsert`
(`jsonc.modify` + `jsonc.applyEdits` from the external `jsonc-parser`
library, whose source is not part of this repository).  Spec 4.1: parse
the text, set `parsed[prop][key] = value` creating `prop` if absent,
and re-serialize.  An absent or empty document (`none`) becomes the
two-level object; a document whose root is not an object cannot receive
a property edit and the editor raises (modelled as `none`), which the
adapter layer catches. -/
def jsoncSetPath (root : Option Json) (prop key : String) (v : Json) :
    Option Json :=
  match root with
  | none => some (Json.obj [(prop, Json.obj [(key, v)])])
  | some (Json.obj fields) =>
      some (Json.obj (setField fields prop
        (Json.obj (upsertInner fields prop key v))))
  | some _ => none

/-- Modelled from the spec: the tolerant-JSON editor's `remove`
(`jsonc.modify` with value `undefined`).  Spec 4.1: delete the key at
`[prop, key]`; if the key or its parent object does not exist the text
is returned unchanged (idempotent). -/
def jsoncRemovePath (root : Option Json) (prop key : String) : Option Json :=
  match root with
  | some (Json.obj fields) =>
      some (Json.obj
        (match lookupField fields prop with
         | some (Json.obj sub) =>
             setField fields prop (Json.obj (removeField sub key))
         | _ => fields))
  | r => r

/-- State of an adapter's config file: absent, or present with the
result of tolerantly parsing its text (`none` models empty or
unparsable text, where `jsonc.parse` yields `undefined`). -/
inductive FileState where
  | absent : FileState
  | present (parsed : Option Json) : FileState

/-- `InstallResult` from `src/types.ts`. -/
structure InstallResult where
  success : Bool
  error : Option String
deriving DecidableEq, Repr

/-- `buildEnv` from `src/clients.ts`: the server entry's environment.
`CODEALIVE_API_KEY` always; `CODEALIVE_BASE_URL` only when the
environment variable of that name is set (modelled by the `baseUrl`
parameter, `process.env.CODEALIVE_BASE_URL`). -/
def buildEnv (apiKey : String) (baseUrl : Option String) :
    List (String × String) :=
  ("CODEALIVE_API_KEY", apiKey) ::
    (match baseUrl with
     | some u => [("CODEALIVE_BASE_URL", u)]
     | none => [])

/-- The environment map as a JSON object value. -/
def envJson (apiKey : String) (baseUrl : Option String) : Json :=
  Json.obj ((buildEnv apiKey baseUrl).map (fun p => (p.1, Json.str p.2)))

/-- `JsonConfigClient.getServerConfig` (the base shape, used by Cursor,
Windsurf and Antigravity): `{command, args, env}`. -/
def baseGetServerConfig (apiKey : String) (baseUrl : Option String) : Json :=
  Json.obj
    [("command", Json.str MCP_COMMAND),
     ("args", Json.arr (MCP_ARGS.map Json.str)),
     ("env", envJson apiKey baseUrl)]

/-- `VSCodeClient.getServerConfig`: adds `type: "stdio"`. -/
def vscodeGetServerConfig (apiKey : String) (baseUrl : Option String) : Json :=
  Json.obj
    [("type", Json.str "stdio"),
     ("command", Json.str MCP_COMMAND),
     ("args", Json.arr (MCP_ARGS.map Json.str)),
     ("env", envJson apiKey baseUrl)]

/-- `ClineClient.getServerConfig` and `RooCodeClient.getServerConfig`:
adds `disabled: false`. -/
def clineGetServerConfig (apiKey : String) (baseUrl : Option String) : Json :=
  Json.obj
    [("command", Json.str MCP_COMMAND),
     ("args", Json.arr (MCP_ARGS.map Json.str)),
     ("env", envJson apiKey baseUrl),
     ("disabled", Json.bool false)]

/-- `ZedClient.getServerConfig`: adds `source: "custom"`. -/
def zedGetServerConfig (apiKey : String) (baseUrl : Option String) : Json :=
  Json.obj
    [("source", Json.str "custom"),
     ("command", Json.str MCP_COMMAND),
     ("args", Json.arr (MCP_ARGS.map Json.str)),
     ("env", envJson apiKey baseUrl)]

/-- `OpenCodeClient.getServerConfig`: `type: "local"`, command as an
array, `enabled: true`, and the environment under `environment`. -/
def opencodeGetServerConfig (apiKey : String) (baseUrl : Option String) :
    Json :=
  Json.obj
    [("type", Json.str "local"),
     ("command", Json.arr ((MCP_COMMAND :: MCP_ARGS).map Json.str)),
     ("enabled", Json.bool true),
     ("environment", envJson apiKey baseUrl)]

/-- A JSON-config adapter variant: its display name, the top-level key
under which server entries nest, the server-entry builder, and the name
of the entry field holding the environment map (`env`, or `environment`
for OpenCode) — the last is statement apparatus for the environment
claims, read off the corresponding `getServerConfig`. -/
structure JsonAdapter where
  name : String
  serverPropertyName : String
  getServerConfig : String → Option String → Json
  envFieldName : String

def cursorAdapter : JsonAdapter :=
  ⟨"Cursor", "mcpServers", baseGetServerConfig, "env"⟩

def vscodeAdapter : JsonAdapter :=
  ⟨"VS Code", "servers", vscodeGetServerConfig, "env"⟩

def windsurfAdapter : JsonAdapter :=
  ⟨"Windsurf", "mcpServers", baseGetServerConfig, "env"⟩

def clineAdapter : JsonAdapter :=
  ⟨"Cline", "mcpServers", clineGetServerConfig, "env"⟩

def rooCodeAdapter : JsonAdapter :=
  ⟨"Roo Code", "mcpServers", clineGetServerConfig, "env"⟩

def zedAdapter : JsonAdapter :=
  ⟨"Zed", "context_servers", zedGetServerConfig, "env"⟩

def opencodeAdapter : JsonAdapter :=
  ⟨"OpenCode", "mcp", opencodeGetServerConfig, "environment"⟩

def antigravityAdapter : JsonAdapter :=
  ⟨"Antigravity", "mcpServers", baseGetServerConfig, "env"⟩

/-- The JSON-config members of the registry `getAllClients()`, in
registry order (the two CLI-based members, Claude Code and Codex, are
modelled separately). -/
def jsonAdapters : List JsonAdapter :=
  [cursorAdapter, vscodeAdapter, windsurfAdapter, clineAdapter,
   rooCodeAdapter, zedAdapter, opencodeAdapter, antigravityAdapter]

/-- `JsonConfigClient.isServerInstalled`: false when the file is absent
or its text does not parse to a value; otherwise the JS test
`prop in config && typeof config[prop] === 'object' && config[prop] !== null
&& MCP_SERVER_NAME in config[prop]`.  A non-object root makes `in`
throw (caught, false); an array passes the `typeof` test but does not
hold the canonical name as a property (it is not a numeric index), so
only a genuine object containing the name yields true.  The method
performs no write: the returned state is the input state. -/
def jsonIsServerInstalled (prop : String) : FileState → Bool × FileState
  | FileState.absent => (false, FileState.absent)
  | FileState.present none => (false, FileState.present none)
  | FileState.present (some j) =>
      (match j with
       | Json.obj fields =>
           match lookupField fields prop with
           | some (Json.obj sub) => (lookupField sub MCP_SERVER_NAME).isSome
           | _ => false
       | _ => false,
       FileState.present (some j))

/-- `JsonConfigClient.addServer`: read the current content (empty when
absent), apply the upsert at `[prop, MCP_SERVER_NAME]`, write the
result back; an editor error is caught and returned as a failure
without a write. -/
def jsonAddServer (prop : String) (entry : Json) (st : FileState) :
    InstallResult × FileState :=
  let content : Option Json :=
    match st with
    | FileState.absent => none
    | FileState.present c => c
  match jsoncSetPath content prop MCP_SERVER_NAME entry with
  | some j => (⟨true, none⟩, FileState.present (some j))
  | none => (⟨false, some "modify failed"⟩, st)

/-- `JsonConfigClient.removeServer`: failure `"Config not found"` and
no write when the file is absent; otherwise apply the removal edit and
write the result back. -/
def jsonRemoveServer (prop : String) (st : FileState) :
    InstallResult × FileState :=
  match st with
  | FileState.absent => (⟨false, some "Config not found"⟩, FileState.absent)
  | FileState.present c =>
      (⟨true, none⟩, FileState.present (jsoncRemovePath c prop MCP_SERVER_NAME))

/-- Top-level key lookup in a config file state (statement apparatus
for the frame claims). -/
def topLevelLookup (st : FileState) (k : String) : Option Json :=
  match st with
  | FileState.present (some (Json.obj fields)) => lookupField fields k
  | _ => none

/-- Lookup of a server entry nested under `prop` (statement apparatus
for the frame claims). -/
def serverEntryLookup (prop : String) (st : FileState) (k : String) :
    Option Json :=
  match topLevelLookup st prop with
  | some (Json.obj sub) => lookupField sub k
  | _ => none

theorem topLevelLookup_addServer_ne (prop : String) (entry : Json)
    (fields : List (String × Json)) (k : String) (hk : k ≠ prop) :
    topLevelLookup
      ((jsonAddServer prop entry (FileState.present (some (Json.obj fields)))).2) k
      = lookupField fields k := by
  simp [jsonAddServer, jsoncSetPath, topLevelLookup,
    lookupField_setField_ne _ _ _ _ hk]

theorem serverEntryLookup_addServer_ne (prop : String) (entry : Json)
    (fields : List (String × Json)) (k : String) (hk : k ≠ MCP_SERVER_NAME) :
    serverEntryLookup prop
      ((jsonAddServer prop entry (FileState.present (some (Json.obj fields)))).2) k
      = serverEntryLookup prop (FileState.present (some (Json.obj fields))) k := by
  simp only [jsonAddServer, jsoncSetPath, serverEntryLookup, topLevelLookup]
  rw [lookupField_setField_self]
  cases h0 : lookupField fields prop with
  | none => simp [upsertInner, h0, lookupField, Ne.symm hk]
  | some j =>
      cases j <;>
        simp [upsertInner, h0, lookupField, Ne.symm hk,
          lookupField_setField_ne _ _ _ _ hk]

theorem topLevelLookup_removeServer_ne (prop : String)
    (fields : List (String × Json)) (k : String) (hk : k ≠ prop) :
    topLevelLookup
      ((jsonRemoveServer prop (FileState.present (some (Json.obj fields)))).2) k
      = lookupField fields k := by
  simp only [jsonRemoveServer, jsoncRemovePath, topLevelLookup]
  cases h0 : lookupField fields prop with
  | none => rfl
  | some j =>
      cases j <;> simp [lookupField_setField_ne _ _ _ _ hk]

theorem serverEntryLookup_removeServer_ne (prop : String)
    (fields : List (String × Json)) (k : String) (hk : k ≠ MCP_SERVER_NAME) :
    serverEntryLookup prop
      ((jsonRemoveServer prop (FileState.present (some (Json.obj fields)))).2) k
      = serverEntryLookup prop (FileState.present (some (Json.obj fields))) k := by
  simp only [jsonRemoveServer, jsoncRemovePath, serverEntryLookup, topLevelLookup]
  cases h0 : lookupField fields prop with
  | none => simp [h0]
  | some j =>
      cases j <;>
        simp [h0, lookupField_setField_self,
          lookupField_removeField_ne _ _ _ hk]

/-- C1: for every JSON-config adapter and every parsed config object,
`addServer(apiKey)` and `removeServer()` change at most the nested
entry `[serverPropertyKey]["codealive"]`: every unrelated top-level key
and every sibling server entry keeps its value. -/
theorem C1_add_remove_frame (a : JsonAdapter) (_ha : a ∈ jsonAdapters)
    (fields : List (String × Json)) (apiKey : String)
    (baseUrl : Option String) (k ksib : String)
    (hk : k ≠ a.serverPropertyName) (hsib : ksib ≠ MCP_SERVER_NAME) :
    topLevelLookup
      ((jsonAddServer a.serverPropertyName (a.getServerConfig apiKey baseUrl)
        (FileState.present (some (Json.obj fields)))).2) k
      = lookupField fields k ∧
    serverEntryLookup a.serverPropertyName
      ((jsonAddServer a.serverPropertyName (a.getServerConfig apiKey baseUrl)
        (FileState.present (some (Json.obj fields)))).2) ksib
      = serverEntryLookup a.serverPropertyName
          (FileState.present (some (Json.obj fields))) ksib ∧
    topLevelLookup
      ((jsonRemoveServer a.serverPropertyName
        (FileState.present (some (Json.obj fields)))).2) k
      = lookupField fields k ∧
    serverEntryLookup a.serverPropertyName
      ((jsonRemoveServer a.serverPropertyName
        (FileState.present (some (Json.obj fields)))).2) ksib
      = serverEntryLookup a.serverPropertyName
          (FileState.present (some (Json.obj fields))) ksib :=
  ⟨topLevelLookup_addServer_ne _ _ _ _ hk,
   serverEntryLookup_addServer_ne _ _ _ _ hsib,
   topLevelLookup_removeServer_ne _ _ _ hk,
   serverEntryLookup_removeServer_ne _ _ _ hsib⟩

/-- C1 witness: a concrete Cursor config with an unrelated top-level
key and an unrelated sibling server entry. -/
theorem C1_add_remove_frame_witness :
    topLevelLookup
      ((jsonAddServer cursorAdapter.serverPropertyName
        (cursorAdapter.getServerConfig "test-key" none)
        (FileState.present (some (Json.obj
          [("keep", Json.str "x"),
           ("mcpServers", Json.obj
             [("other", Json.num 1), ("codealive", Json.null)])])))).2) "keep"
      = lookupField
          [("keep", Json.str "x"),
           ("mcpServers", Json.obj
             [("other", Json.num 1), ("codealive", Json.null)])] "keep" ∧
    serverEntryLookup cursorAdapter.serverPropertyName
      ((jsonAddServer cursorAdapter.serverPropertyName
        (cursorAdapter.getServerConfig "test-key" none)
        (FileState.present (some (Json.obj
          [("keep", Json.str "x"),
           ("mcpServers", Json.obj
             [("other", Json.num 1), ("codealive", Json.null)])])))).2) "other"
      = serverEntryLookup cursorAdapter.serverPropertyName
          (FileState.present (some (Json.obj
            [("keep", Json.str "x"),
             ("mcpServers", Json.obj
               [("other", Json.num 1), ("codealive", Json.null)])]))) "other" ∧
    topLevelLookup
      ((jsonRemoveServer cursorAdapter.serverPropertyName
        (FileState.present (some (Json.obj
          [("keep", Json.str "x"),
           ("mcpServers", Json.obj
             [("other", Json.num 1), ("codealive", Json.null)])])))).2) "keep"
      = lookupField
          [("keep", Json.str "x"),
           ("mcpServers", Json.obj
             [("other", Json.num 1), ("codealive", Json.null)])] "keep" ∧
    serverEntryLookup cursorAdapter.serverPropertyName
      ((jsonRemoveServer cursorAdapter.serverPropertyName
        (FileState.present (some (Json.obj
          [("keep", Json.str "x"),
           ("mcpServers", Json.obj
             [("other", Json.num 1), ("codealive", Json.null)])])))).2) "other"
      = serverEntryLookup cursorAdapter.serverPropertyName
          (FileState.present (some (Json.obj
            [("keep", Json.str "x"),
             ("mcpServers", Json.obj
               [("other", Json.num 1), ("codealive", Json.null)])]))) "other" :=
  C1_add_remove_frame cursorAdapter (by simp [jsonAdapters])
    [("keep", Json.str "x"),
     ("mcpServers", Json.obj [("other", Json.num 1), ("codealive", Json.null)])]
    "test-key" none "keep" "other" (by decide) (by decide)

/-- State visible to a CLI-driven adapter.  Modelled from the spec
(4.3): `binaryAvailable` is whether binary resolution (candidate paths,
then the locate-executable command) yields a path; `execOk` is whether
invoking the resolved binary succeeds; `registry` is the external
CLI's own store of registered server names, which its `list`
subcommand prints and its `add`/`remove` subcommands mutate. -/
structure CliWorld where
  binaryAvailable : Bool
  execOk : Bool
  registry : List String
deriving DecidableEq, Repr

/-- `MCPClient.isServerInstalled` (abstract base, `src/clients.ts`
lines 54-56): unconditionally false. -/
def mcpClientBaseIsServerInstalled (_w : CliWorld) : Bool := false

/-- `MCPClient.removeServer` (abstract base, lines 58-60):
unconditionally `{success: false, error: 'Not implemented'}`, touching
nothing. -/
def mcpClientBaseRemoveServer (w : CliWorld) : InstallResult × CliWorld :=
  (⟨false, some "Not implemented"⟩, w)

/-- `ClaudeCodeClient.addServer`: fail when no binary resolves;
otherwise best-effort `mcp remove` (drop any prior entry, ignoring
failure) then `mcp add` of the canonical name.  The registry mutation
is modelled from the spec's description of the external CLI's
add/remove subcommands. -/
def claudeAddServer (w : CliWorld) : InstallResult × CliWorld :=
  if w.binaryAvailable then
    let reg1 := w.registry.filter (fun n => n != MCP_SERVER_NAME)
    if w.execOk then
      (⟨true, none⟩, { w with registry := MCP_SERVER_NAME :: reg1 })
    else (⟨false, some "spawn error"⟩, { w with registry := reg1 })
  else (⟨false, some "Claude Code CLI not found"⟩, w)

/-- `ClaudeCodeClient.isServerInstalled`: false when no binary or the
`mcp list` invocation fails; otherwise whether the list output contains
the canonical name. -/
def claudeIsServerInstalled (w : CliWorld) : Bool :=
  w.binaryAvailable && w.execOk && w.registry.contains MCP_SERVER_NAME

/-- `CodexClient.addServer`: same shape as the Claude Code one, against
the codex CLI's registry, with `--env` assignments. -/
def codexAddServer (w : CliWorld) : InstallResult × CliWorld :=
  if w.binaryAvailable then
    let reg1 := w.registry.filter (fun n => n != MCP_SERVER_NAME)
    if w.execOk then
      (⟨true, none⟩, { w with registry := MCP_SERVER_NAME :: reg1 })
    else (⟨false, some "spawn error"⟩, { w with registry := reg1 })
  else (⟨false, some "Codex CLI not found"⟩, w)

/-- `CodexClient` declares no `isServerInstalled`, so it inherits the
abstract base's stub. -/
def codexIsServerInstalled : CliWorld → Bool := mcpClientBaseIsServerInstalled

/-- `CodexClient` declares no `removeServer`, so it inherits the
abstract base's stub. -/
def codexRemoveServer : CliWorld → InstallResult × CliWorld :=
  mcpClientBaseRemoveServer

/-- C2 (amended): for every JSON-config adapter and for the Claude Code
CLI adapter, a successful `addServer(apiKey)` makes an immediately
following `isServerInstalled()` return true.  (The Codex adapter,
excluded here, violates the original claim: see the counterexample.) -/
theorem C2_amended_add_then_installed
    (a : JsonAdapter) (_ha : a ∈ jsonAdapters) (st : FileState)
    (apiKey : String) (baseUrl : Option String) (w : CliWorld)
    (hjson : ((jsonAddServer a.serverPropertyName
      (a.getServerConfig apiKey baseUrl) st).1).success = true)
    (hcli : ((claudeAddServer w).1).success = true) :
    (jsonIsServerInstalled a.serverPropertyName
      ((jsonAddServer a.serverPropertyName
        (a.getServerConfig apiKey baseUrl) st).2)).1 = true ∧
    claudeIsServerInstalled ((claudeAddServer w).2) = true := by
  constructor
  · cases st with
    | absent =>
        simp [jsonAddServer, jsoncSetPath, jsonIsServerInstalled, lookupField]
    | present c =>
        cases c with
        | none =>
            simp [jsonAddServer, jsoncSetPath, jsonIsServerInstalled,
              lookupField]
        | some j =>
            cases j with
            | obj fields =>
                simp only [jsonAddServer, jsoncSetPath, jsonIsServerInstalled]
                rw [lookupField_setField_self]
                cases h0 : lookupField fields a.serverPropertyName with
                | none => simp [upsertInner, h0, lookupField]
                | some j' =>
                    cases j' <;>
                      simp [upsertInner, h0, lookupField,
                        lookupField_setField_self]
            | null => simp [jsonAddServer, jsoncSetPath] at hjson
            | bool b => simp [jsonAddServer, jsoncSetPath] at hjson
            | num n => simp [jsonAddServer, jsoncSetPath] at hjson
            | str s => simp [jsonAddServer, jsoncSetPath] at hjson
            | arr xs => simp [jsonAddServer, jsoncSetPath] at hjson
  · cases w with
    | mk bin ex reg =>
        cases bin with
        | false => simp [claudeAddServer] at hcli
        | true =>
            cases ex with
            | false => simp [claudeAddServer] at hcli
            | true => simp [claudeAddServer, claudeIsServerInstalled]

/-- C2 witness: Cursor starting from an absent config, and a Claude
Code world where the binary resolves and invocations succeed. -/
theorem C2_amended_add_then_installed_witness :
    (jsonIsServerInstalled cursorAdapter.serverPropertyName
      ((jsonAddServer cursorAdapter.serverPropertyName
        (cursorAdapter.getServerConfig "test-key" none)
        FileState.absent).2)).1 = true ∧
    claudeIsServerInstalled ((claudeAddServer ⟨true, true, []⟩).2) = true :=
  C2_amended_add_then_installed cursorAdapter (by simp [jsonAdapters])
    FileState.absent "test-key" none ⟨true, true, []⟩ (by rfl) (by rfl)

/-- C2 counterexample: for the Codex adapter the original claim fails:
in a world where the codex binary resolves and invocations succeed,
`addServer` succeeds yet the immediately following
`isServerInstalled()` returns false (it is the inherited base stub). -/
theorem C2_codex_counterexample :
    ((codexAddServer ⟨true, true, []⟩).1).success = true ∧
    codexIsServerInstalled ((codexAddServer ⟨true, true, []⟩).2) = false :=
  ⟨rfl, rfl⟩

/-- C9: the Codex adapter's `isServerInstalled()` is false in every
state and its `removeServer()` returns
`{success: false, error: 'Not implemented'}` in every state, leaving
the state untouched — both are the abstract base class's
implementations, inherited unchanged. -/
theorem C9_codex_inherited_stubs (w : CliWorld) :
    codexIsServerInstalled w = false ∧
    codexRemoveServer w = (⟨false, some "Not implemented"⟩, w) ∧
    codexIsServerInstalled = mcpClientBaseIsServerInstalled ∧
    codexRemoveServer = mcpClientBaseRemoveServer :=
  ⟨rfl, rfl, rfl, rfl⟩

/-- C4: for every JSON-config adapter, `isServerInstalled()` is false
on an absent file (leaving it absent) and on unparsable content, and on
parsed content it is true exactly when the adapter's server property
maps to an object having the canonical name among its keys; the model
is a total function (the source wraps the body in try/catch, so the
method never raises) and returns the state unchanged (no write). -/
theorem C4_isServerInstalled_spec (a : JsonAdapter) (_ha : a ∈ jsonAdapters)
    (j : Json) :
    (jsonIsServerInstalled a.serverPropertyName FileState.absent).1 = false ∧
    (jsonIsServerInstalled a.serverPropertyName FileState.absent).2
      = FileState.absent ∧
    (jsonIsServerInstalled a.serverPropertyName (FileState.present none)).1
      = false ∧
    (jsonIsServerInstalled a.serverPropertyName
      (FileState.present (some j))).2 = FileState.present (some j) ∧
    ((jsonIsServerInstalled a.serverPropertyName
        (FileState.present (some j))).1 = true ↔
      ∃ sub, topLevelLookup (FileState.present (some j)) a.serverPropertyName
          = some (Json.obj sub) ∧
        (lookupField sub MCP_SERVER_NAME).isSome = true) := by
  refine ⟨rfl, rfl, rfl, rfl, ?_⟩
  cases j with
  | obj fields =>
      simp only [jsonIsServerInstalled, topLevelLookup]
      cases h0 : lookupField fields a.serverPropertyName with
      | none => simp
      | some j' => cases j' <;> simp
  | null => simp [jsonIsServerInstalled, topLevelLookup]
  | bool b => simp [jsonIsServerInstalled, topLevelLookup]
  | num n => simp [jsonIsServerInstalled, topLevelLookup]
  | str s => simp [jsonIsServerInstalled, topLevelLookup]
  | arr xs => simp [jsonIsServerInstalled, topLevelLookup]

/-- C4 witness: Cursor on a config whose `mcpServers` object holds the
canonical entry. -/
theorem C4_isServerInstalled_spec_witness :
    (jsonIsServerInstalled cursorAdapter.serverPropertyName
      FileState.absent).1 = false ∧
    (jsonIsServerInstalled cursorAdapter.serverPropertyName
      FileState.absent).2 = FileState.absent ∧
    (jsonIsServerInstalled cursorAdapter.serverPropertyName
      (FileState.present none)).1 = false ∧
    (jsonIsServerInstalled cursorAdapter.serverPropertyName
      (FileState.present (some (Json.obj
        [("mcpServers", Json.obj [("codealive", Json.null)])])))).2
      = FileState.present (some (Json.obj
          [("mcpServers", Json.obj [("codealive", Json.null)])])) ∧
    ((jsonIsServerInstalled cursorAdapter.serverPropertyName
        (FileState.present (some (Json.obj
          [("mcpServers", Json.obj [("codealive", Json.null)])])))).1 = true ↔
      ∃ sub, topLevelLookup
          (FileState.present (some (Json.obj
            [("mcpServers", Json.obj [("codealive", Json.null)])])))
          cursorAdapter.serverPropertyName = some (Json.obj sub) ∧
        (lookupField sub MCP_SERVER_NAME).isSome = true) :=
  C4_isServerInstalled_spec cursorAdapter (by simp [jsonAdapters])
    (Json.obj [("mcpServers", Json.obj [("codealive", Json.null)])])

/-- C8: for every JSON-config adapter, `removeServer()` on an absent
config returns `{success: false, error: 'Config not found'}` without
writing, and on an existing config applies the removal edit and writes
the edited document back. -/
theorem C8_removeServer_spec (a : JsonAdapter) (_ha : a ∈ jsonAdapters)
    (c : Option Json) :
    jsonRemoveServer a.serverPropertyName FileState.absent
      = (⟨false, some "Config not found"⟩, FileState.absent) ∧
    jsonRemoveServer a.serverPropertyName (FileState.present c)
      = (⟨true, none⟩, FileState.present
          (jsoncRemovePath c a.serverPropertyName MCP_SERVER_NAME)) :=
  ⟨rfl, rfl⟩

/-- C8 witness: Cursor with an absent config and with a config holding
the canonical entry. -/
theorem C8_removeServer_spec_witness :
    jsonRemoveServer cursorAdapter.serverPropertyName FileState.absent
      = (⟨false, some "Config not found"⟩, FileState.absent) ∧
    jsonRemoveServer cursorAdapter.serverPropertyName
      (FileState.present (some (Json.obj
        [("mcpServers", Json.obj [("codealive", Json.null)])])))
      = (⟨true, none⟩, FileState.present
          (jsoncRemovePath
            (some (Json.obj
              [("mcpServers", Json.obj [("codealive", Json.null)])]))
            cursorAdapter.serverPropertyName MCP_SERVER_NAME)) :=
  C8_removeServer_spec cursorAdapter (by simp [jsonAdapters])
    (some (Json.obj [("mcpServers", Json.obj [("codealive", Json.null)])]))

/-- `process.platform` values distinguished by the source: the three
recognized platforms plus any other value Node may report. -/
inductive Platform where
  | darwin : Platform
  | linux : Platform
  | win32 : Platform
  | other (s : String) : Platform
deriving DecidableEq, Repr

/-- The process environment the path resolvers read: the platform,
`os.homedir()`, `process.env.APPDATA || ''`, and
`process.env.XDG_CONFIG_HOME`. -/
structure SysEnv where
  platform : Platform
  home : String
  appdata : String
  xdgConfigHome : Option String
deriving DecidableEq, Repr

/-- `path.join`, with the posix separator: the claims about path
resolution all concern non-Windows branches. -/
def pathJoin (parts : List String) : String := String.intercalate "/" parts

/-- `path.dirname` for the slash-joined paths built here. -/
def pathDirname (p : String) : String :=
  String.intercalate "/" ((p.splitOn "/").dropLast)

/-- `CursorClient.getConfigPath`: win32 → APPDATA, linux → XDG-style
`~/.config`, every other platform (the macOS branch, which is also the
fallback for unrecognized platforms) → `~/.cursor`. -/
def cursorGetConfigPath (e : SysEnv) : String :=
  match e.platform with
  | Platform.win32 => pathJoin [e.appdata, "Cursor", "mcp.json"]
  | Platform.linux => pathJoin [e.home, ".config", "cursor", "mcp.json"]
  | _ => pathJoin [e.home, ".cursor", "mcp.json"]

/-- `VSCodeClient.getConfigPath`. -/
def vscodeGetConfigPath (e : SysEnv) : String :=
  match e.platform with
  | Platform.darwin =>
      pathJoin [e.home, "Library", "Application Support", "Code", "User",
        "mcp.json"]
  | Platform.win32 => pathJoin [e.appdata, "Code", "User", "mcp.json"]
  | _ => pathJoin [e.home, ".config", "Code", "User", "mcp.json"]

/-- `WindsurfClient.getConfigPath`. -/
def windsurfGetConfigPath (e : SysEnv) : String :=
  match e.platform with
  | Platform.darwin => pathJoin [e.home, ".codeium", "windsurf",
      "mcp_config.json"]
  | Platform.win32 => pathJoin [e.appdata, "Codeium", "windsurf",
      "mcp_config.json"]
  | _ => pathJoin [e.home, ".config", "windsurf", "mcp.json"]

/-- The per-user settings suffix of `ClineClient.getConfigPath`. -/
def clineSuffix : List String :=
  ["Code", "User", "globalStorage", "saoudrizwan.claude-dev", "settings",
   "cline_mcp_settings.json"]

/-- `ClineClient.getConfigPath`. -/
def clineGetConfigPath (e : SysEnv) : String :=
  match e.platform with
  | Platform.darwin =>
      pathJoin (e.home :: "Library" :: "Application Support" :: clineSuffix)
  | Platform.win32 => pathJoin (e.appdata :: clineSuffix)
  | _ => pathJoin (e.home :: ".config" :: clineSuffix)

/-- The per-user settings suffix of `RooCodeClient.getConfigPath`. -/
def rooCodeSuffix : List String :=
  ["Code", "User", "globalStorage", "rooveterinaryinc.roo-cline", "settings",
   "mcp_settings.json"]

/-- `RooCodeClient.getConfigPath`. -/
def rooCodeGetConfigPath (e : SysEnv) : String :=
  match e.platform with
  | Platform.darwin =>
      pathJoin (e.home :: "Library" :: "Application Support" :: rooCodeSuffix)
  | Platform.win32 => pathJoin (e.appdata :: rooCodeSuffix)
  | _ => pathJoin (e.home :: ".config" :: rooCodeSuffix)

/-- `ZedClient.getConfigPath`: `XDG_CONFIG_HOME` when set, else
`~/.config`; no platform branch. -/
def zedGetConfigPath (e : SysEnv) : String :=
  match e.xdgConfigHome with
  | some x => pathJoin [x, "zed", "settings.json"]
  | none => pathJoin [e.home, ".config", "zed", "settings.json"]

/-- `OpenCodeClient.getConfigPath`. -/
def opencodeGetConfigPath (e : SysEnv) : String :=
  match e.platform with
  | Platform.win32 => pathJoin [e.appdata, "opencode", "opencode.json"]
  | _ => pathJoin [e.home, ".config", "opencode", "opencode.json"]

/-- `AntigravityClient.getConfigPath`: one fixed home-relative path,
no platform branch. -/
def antigravityGetConfigPath (e : SysEnv) : String :=
  pathJoin [e.home, ".gemini", "antigravity", "mcp_config.json"]

/-- `ZedClient.isClientSupported`: false outright unless the platform
is darwin or linux; otherwise whether the config file's parent
directory exists (`existingDirs` models `fs.existsSync`). -/
def zedIsClientSupported (e : SysEnv) (existingDirs : List String) : Bool :=
  match e.platform with
  | Platform.darwin =>
      existingDirs.contains (pathDirname (zedGetConfigPath e))
  | Platform.linux =>
      existingDirs.contains (pathDirname (zedGetConfigPath e))
  | _ => false

/-- A concrete environment whose platform is none of darwin, linux,
win32. -/
def unrecognizedEnv : SysEnv := ⟨Platform.other "freebsd", "/home/u", "", none⟩

/-- C6 counterexample: on an unrecognized platform the Cursor adapter
does not return its XDG-style config-directory path
(`~/.config/cursor/mcp.json`, its linux branch); it falls back to the
macOS dot-directory convention `~/.cursor/mcp.json`. -/
theorem C6_cursor_fallback_counterexample :
    cursorGetConfigPath unrecognizedEnv = "/home/u/.cursor/mcp.json" ∧
    cursorGetConfigPath unrecognizedEnv
      ≠ pathJoin [unrecognizedEnv.home, ".config", "cursor", "mcp.json"] := by
  refine ⟨rfl, ?_⟩
  decide

/-- C6 (amended): on an unrecognized platform every JSON-config
adapter's `getConfigPath()` deterministically returns its non-Windows
fallback branch without erroring: for VS Code, Windsurf, Cline,
Roo Code and OpenCode (and Zed absent an XDG override) that is the
XDG-style `~/.config` convention, but Cursor falls back to the macOS
dot-directory `~/.cursor`, and Antigravity always uses the fixed
`~/.gemini` dot-directory path. -/
theorem C6_amended_fallback_paths (e : SysEnv) (s : String)
    (h : e.platform = Platform.other s) :
    cursorGetConfigPath e = pathJoin [e.home, ".cursor", "mcp.json"] ∧
    vscodeGetConfigPath e
      = pathJoin [e.home, ".config", "Code", "User", "mcp.json"] ∧
    windsurfGetConfigPath e
      = pathJoin [e.home, ".config", "windsurf", "mcp.json"] ∧
    clineGetConfigPath e = pathJoin (e.home :: ".config" :: clineSuffix) ∧
    rooCodeGetConfigPath e = pathJoin (e.home :: ".config" :: rooCodeSuffix) ∧
    zedGetConfigPath e
      = (match e.xdgConfigHome with
         | some x => pathJoin [x, "zed", "settings.json"]
         | none => pathJoin [e.home, ".config", "zed", "settings.json"]) ∧
    opencodeGetConfigPath e
      = pathJoin [e.home, ".config", "opencode", "opencode.json"] ∧
    antigravityGetConfigPath e
      = pathJoin [e.home, ".gemini", "antigravity", "mcp_config.json"] := by
  obtain ⟨p, home, ad, xdg⟩ := e
  simp only at h
  subst h
  exact ⟨rfl, rfl, rfl, rfl, rfl, rfl, rfl, rfl⟩

/-- C6 witness: the amended statement at the concrete unrecognized
environment. -/
theorem C6_amended_fallback_paths_witness :
    cursorGetConfigPath unrecognizedEnv
      = pathJoin [unrecognizedEnv.home, ".cursor", "mcp.json"] ∧
    vscodeGetConfigPath unrecognizedEnv
      = pathJoin [unrecognizedEnv.home, ".config", "Code", "User",
          "mcp.json"] ∧
    windsurfGetConfigPath unrecognizedEnv
      = pathJoin [unrecognizedEnv.home, ".config", "windsurf", "mcp.json"] ∧
    clineGetConfigPath unrecognizedEnv
      = pathJoin (unrecognizedEnv.home :: ".config" :: clineSuffix) ∧
    rooCodeGetConfigPath unrecognizedEnv
      = pathJoin (unrecognizedEnv.home :: ".config" :: rooCodeSuffix) ∧
    zedGetConfigPath unrecognizedEnv
      = (match unrecognizedEnv.xdgConfigHome with
         | some x => pathJoin [x, "zed", "settings.json"]
         | none => pathJoin [unrecognizedEnv.home, ".config", "zed",
             "settings.json"]) ∧
    opencodeGetConfigPath unrecognizedEnv
      = pathJoin [unrecognizedEnv.home, ".config", "opencode",
          "opencode.json"] ∧
    antigravityGetConfigPath unrecognizedEnv
      = pathJoin [unrecognizedEnv.home, ".gemini", "antigravity",
          "mcp_config.json"] :=
  C6_amended_fallback_paths unrecognizedEnv "freebsd" rfl

/-- C7: the Zed adapter's `isClientSupported()` is false on win32
regardless of which directories exist. -/
theorem C7_zed_unsupported_on_win32 (e : SysEnv) (dirs : List String)
    (h : e.platform = Platform.win32) : zedIsClientSupported e dirs = false := by
  obtain ⟨p, home, ad, xdg⟩ := e
  simp only at h
  subst h
  rfl

/-- C7 witness: a win32 environment in which the Zed config directory
does exist on disk. -/
theorem C7_zed_unsupported_on_win32_witness :
    zedIsClientSupported ⟨Platform.win32, "/home/u", "C:/Users/u/AppData", none⟩
      ["/home/u/.config/zed"] = false :=
  C7_zed_unsupported_on_win32
    ⟨Platform.win32, "/home/u", "C:/Users/u/AppData", none⟩
    ["/home/u/.config/zed"] rfl

/-- `findBinary` from `src/clients.ts`: scan the candidate paths in
order and return the first that exists on disk; otherwise invoke the
platform's locate-executable command (`which`/`where`) and, when it
succeeds, return the bare `name` argument (not the path the command
printed, which the source discards); return null only when every
candidate is absent and the locate command fails.  `existingFiles`
models `fs.existsSync`; `locateResult` is the locate command's output
when it exits successfully, `none` when it fails. -/
def findBinary (name : String) (candidates existingFiles : List String)
    (locateResult : Option String) : Option String :=
  match candidates.find? (fun c => existingFiles.contains c) with
  | some c => some c
  | none =>
      match locateResult with
      | some _ => some name
      | none => none

theorem find?_append_first (p : String → Bool) (l1 : List String) (c : String)
    (l2 : List String) (h1 : ∀ x ∈ l1, p x = false) (h2 : p c = true) :
    (l1 ++ c :: l2).find? p = some c := by
  induction l1 with
  | nil => simp [List.find?_cons_of_pos, h2]
  | cons hd tl ih =>
      have hhd : p hd = false := h1 hd (List.mem_cons_self hd tl)
      rw [List.cons_append, List.find?_cons_of_neg _ (by simp [hhd])]
      exact ih (fun x hx => h1 x (List.mem_cons_of_mem hd hx))

/-- C10: `findBinary` returns the first candidate that exists; when no
candidate exists but the locate command succeeds (printing some path
`q`), it returns the bare `name` itself, not `q`; and it returns null
exactly when every candidate is absent and the locate command failed. -/
theorem C10_findBinary_spec (name c : String)
    (l1 l2 candidates existing : List String)
    (habs : ∀ x ∈ l1, existing.contains x = false)
    (hc : existing.contains c = true)
    (hnone : ∀ x ∈ candidates, existing.contains x = false) :
    (∀ loc, findBinary name (l1 ++ c :: l2) existing loc = some c) ∧
    (∀ q, findBinary name candidates existing (some q) = some name) ∧
    findBinary name candidates existing none = none ∧
    (∀ (cands : List String) (loc : Option String),
      findBinary name cands existing loc = none →
      (∀ x ∈ cands, existing.contains x = false) ∧ loc = none) := by
  have hfind : candidates.find? (fun x => existing.contains x) = none :=
    List.find?_eq_none.mpr (fun x hx => by simpa using hnone x hx)
  refine ⟨?_, ?_, ?_, ?_⟩
  · intro loc
    unfold findBinary
    rw [find?_append_first (fun x => existing.contains x) l1 c l2 habs hc]
  · intro q
    unfold findBinary
    rw [hfind]
  · unfold findBinary
    rw [hfind]
  · intro cands loc h
    unfold findBinary at h
    cases hf : cands.find? (fun x => existing.contains x) with
    | some c' => rw [hf] at h; exact absurd h (by simp)
    | none =>
        rw [hf] at h
        cases loc with
        | some q => exact absurd h (by simp)
        | none =>
            refine ⟨fun x hx => ?_, rfl⟩
            have := List.find?_eq_none.mp hf x hx
            simpa using this

/-- C10 witness: candidate `/a` absent and `/b` present selects `/b`;
with only absent candidates, a successful locate returns the bare name
and a failed locate returns null. -/
theorem C10_findBinary_spec_witness :
    (∀ loc, findBinary "codex" (["/a"] ++ "/b" :: []) ["/b"] loc
      = some "/b") ∧
    (∀ q, findBinary "codex" ["/x"] ["/b"] (some q) = some "codex") ∧
    findBinary "codex" ["/x"] ["/b"] none = none ∧
    (∀ (cands : List String) (loc : Option String),
      findBinary "codex" cands ["/b"] loc = none →
      (∀ x ∈ cands, List.contains ["/b"] x = false) ∧ loc = none) :=
  C10_findBinary_spec "codex" "/b" ["/a"] [] ["/x"] ["/b"]
    (by decide) (by decide) (by decide)

/-- Outcome of the `fetch` to the verification endpoint: a response
with an HTTP status and a parsed JSON body, or a thrown error carrying
its `name` and `message` (a timeout throws an error named
`TimeoutError`). -/
inductive FetchOutcome where
  | response (status : Nat) (body : Json) : FetchOutcome
  | thrown (name : String) (message : String) : FetchOutcome

/-- `VerifyResult` from `src/types.ts` (`datasourceCount` is an
optional field, absent on failures). -/
structure VerifyResult where
  valid : Bool
  message : String
  datasourceCount : Option Nat
deriving DecidableEq, Repr

/-- `Array.isArray(data) ? data.length : 0` from `verifyKey`. -/
def jsonCount : Json → Nat
  | Json.arr xs => xs.length
  | _ => 0

/-- `verifyKey` from `src/auth.ts`, as a function of the fetch
outcome. -/
def verifyKey : FetchOutcome → VerifyResult
  | FetchOutcome.response status body =>
      if status < 200 ∨ 300 ≤ status then
        if status = 401 then
          ⟨false, "API key is invalid or expired.", none⟩
        else
          ⟨false, "API returned HTTP " ++ toString status ++ ".", none⟩
      else
        ⟨true,
         "Connected. " ++ toString (jsonCount body) ++ " data source" ++
           (if jsonCount body ≠ 1 then "s" else "") ++ " available.",
         some (jsonCount body)⟩
  | FetchOutcome.thrown errName errMsg =>
      if errName = "TimeoutError" then
        ⟨false, "Connection timed out.", none⟩
      else
        ⟨false, "Cannot connect: " ++ errMsg, none⟩

/-- Substring containment: `s` has `pat` as a contiguous substring. -/
def strContains (s pat : String) : Prop := ∃ l r : String, s = l ++ pat ++ r

/-- C3: `verifyKey` case by case.  HTTP 200 with an n-element list
body: valid with count n and a message containing `n data sources`
(singular, no trailing `s`, when n = 1); HTTP 200 with a non-list
body: valid with count 0; HTTP 401: invalid, "invalid or expired";
any other non-2xx status: invalid with the numeric status in the
message; a thrown `TimeoutError`: a "timed out" message; any other
thrown error: a "Cannot connect" message. -/
theorem C3_verifyKey_spec (xs : List Json) (b : Json)
    (hb : ∀ ys, b ≠ Json.arr ys) (status : Nat) (body401 body : Json)
    (hs : status < 200 ∨ 300 ≤ status) (hs401 : status ≠ 401)
    (ename emsg tmsg : String) (hn : ename ≠ "TimeoutError") :
    (verifyKey (FetchOutcome.response 200 (Json.arr xs))
      = ⟨true,
         "Connected. " ++ toString xs.length ++ " data source" ++
           (if xs.length ≠ 1 then "s" else "") ++ " available.",
         some xs.length⟩ ∧
     strContains (verifyKey (FetchOutcome.response 200 (Json.arr xs))).message
       (toString xs.length ++ " data source" ++
         (if xs.length = 1 then "" else "s"))) ∧
    verifyKey (FetchOutcome.response 200 b)
      = ⟨true, "Connected. 0 data sources available.", some 0⟩ ∧
    (verifyKey (FetchOutcome.response 401 body401)
      = ⟨false, "API key is invalid or expired.", none⟩ ∧
     strContains "API key is invalid or expired." "invalid or expired") ∧
    ((verifyKey (FetchOutcome.response status body)).valid = false ∧
     strContains (verifyKey (FetchOutcome.response status body)).message
       (toString status)) ∧
    (verifyKey (FetchOutcome.thrown "TimeoutError" tmsg)
      = ⟨false, "Connection timed out.", none⟩ ∧
     strContains "Connection timed out." "timed out") ∧
    (verifyKey (FetchOutcome.thrown ename emsg)
      = ⟨false, "Cannot connect: " ++ emsg, none⟩ ∧
     strContains ("Cannot connect: " ++ emsg) "Cannot connect") := by
  refine ⟨⟨?_, ?_⟩, ?_, ⟨?_, "API key is ", ".", rfl⟩, ⟨?_, ?_⟩,
    ⟨?_, "Connection ", ".", rfl⟩, ⟨?_, ?_⟩⟩
  · simp [verifyKey, jsonCount]
  · refine ⟨"Connected. ", " available.", ?_⟩
    by_cases hlen : xs.length = 1 <;>
      simp [verifyKey, jsonCount, hlen, String.append_assoc]
  · have hc : jsonCount b = 0 := by
      cases b with
      | arr ys => exact absurd rfl (hb ys)
      | null => rfl
      | bool c => rfl
      | num n => rfl
      | str s => rfl
      | obj fs => rfl
    simp only [verifyKey]
    rw [if_neg (by decide : ¬((200 : Nat) < 200 ∨ 300 ≤ 200)), hc]
    decide
  · simp [verifyKey]
  · simp only [verifyKey]
    rw [if_pos hs, if_neg hs401]
  · simp only [verifyKey]
    rw [if_pos hs, if_neg hs401]
    exact ⟨"API returned HTTP ", ".", rfl⟩
  · simp [verifyKey]
  · simp [verifyKey, hn]
  · refine ⟨"", ": " ++ emsg, ?_⟩
    have h1 : "Cannot connect: " = "Cannot connect" ++ ": " := rfl
    rw [h1, String.append_assoc]
    rfl

/-- C3 witness: a one-element list body (exercising the singular
message), a non-list body, a 404, a timeout and a connection error. -/
theorem C3_verifyKey_spec_witness :
    (verifyKey (FetchOutcome.response 200 (Json.arr [Json.null]))
      = ⟨true,
         "Connected. " ++ toString (List.length [Json.null]) ++
           " data source" ++
           (if List.length [Json.null] ≠ 1 then "s" else "") ++ " available.",
         some (List.length [Json.null])⟩ ∧
     strContains
       (verifyKey (FetchOutcome.response 200 (Json.arr [Json.null]))).message
       (toString (List.length [Json.null]) ++ " data source" ++
         (if List.length [Json.null] = 1 then "" else "s"))) ∧
    verifyKey (FetchOutcome.response 200 (Json.obj []))
      = ⟨true, "Connected. 0 data sources available.", some 0⟩ ∧
    (verifyKey (FetchOutcome.response 401 Json.null)
      = ⟨false, "API key is invalid or expired.", none⟩ ∧
     strContains "API key is invalid or expired." "invalid or expired") ∧
    ((verifyKey (FetchOutcome.response 404 Json.null)).valid = false ∧
     strContains (verifyKey (FetchOutcome.response 404 Json.null)).message
       (toString 404)) ∧
    (verifyKey (FetchOutcome.thrown "TimeoutError" "t")
      = ⟨false, "Connection timed out.", none⟩ ∧
     strContains "Connection timed out." "timed out") ∧
    (verifyKey (FetchOutcome.thrown "ECONNREFUSED" "refused")
      = ⟨false, "Cannot connect: " ++ "refused", none⟩ ∧
     strContains ("Cannot connect: " ++ "refused") "Cannot connect") :=
  C3_verifyKey_spec [Json.null] (Json.obj [])
    (fun ys h => Json.noConfusion h) 404 Json.null Json.null
    (by decide) (by decide) "ECONNREFUSED" "refused" "t" (by decide)

/-- The field list of a server entry (entries are JSON objects). -/
def entryFields : Json → List (String × Json)
  | Json.obj fs => fs
  | _ => []

/-- The environment map's fields as written into JSON entries. -/
def envFieldsList (apiKey : String) (baseUrl : Option String) :
    List (String × Json) :=
  (buildEnv apiKey baseUrl).map (fun p => (p.1, Json.str p.2))

/-- The argument list `ClaudeCodeClient.addServer` builds before the
base-URL splice. -/
def claudeBaseArgs (apiKey : String) : List String :=
  ["mcp", "add", MCP_SERVER_NAME, "-e", "CODEALIVE_API_KEY=" ++ apiKey,
   "-s", "user", "--", MCP_COMMAND] ++ MCP_ARGS

/-- The final argument list of `ClaudeCodeClient.addServer`:
`args.splice(4, 0, '-e', 'CODEALIVE_BASE_URL=...')` inserts the two
extra tokens at index 4 — between the existing `-e` flag and its
`CODEALIVE_API_KEY=...` value. -/
def claudeAddArgs (apiKey : String) (baseUrl : Option String) : List String :=
  match baseUrl with
  | some u =>
      (claudeBaseArgs apiKey).take 4 ++ ["-e", "CODEALIVE_BASE_URL=" ++ u] ++
        (claudeBaseArgs apiKey).drop 4
  | none => claudeBaseArgs apiKey

/-- The argument list of `CodexClient.addServer`: `--env` assignments
pushed in order, then the `--` separator and the launch command. -/
def codexAddArgs (apiKey : String) (baseUrl : Option String) : List String :=
  (["mcp", "add", MCP_SERVER_NAME, "--env", "CODEALIVE_API_KEY=" ++ apiKey]
    ++ (match baseUrl with
        | some u => ["--env", "CODEALIVE_BASE_URL=" ++ u]
        | none => []))
  ++ ("--" :: MCP_COMMAND :: MCP_ARGS)

theorem ne_baseUrlAssign_of_short (s : String) (h : s.length < 19)
    (v : String) : s ≠ "CODEALIVE_BASE_URL=" ++ v := by
  intro hv
  have hl := congrArg String.length hv
  rw [String.length_append] at hl
  have h19 : "CODEALIVE_BASE_URL=".length = 19 := rfl
  omega

theorem apiKeyAssign_ne_baseUrlAssign (a v : String) :
    "CODEALIVE_API_KEY=" ++ a ≠ "CODEALIVE_BASE_URL=" ++ v := by
  intro h
  have hd := congrArg String.data h
  simp [String.data_append] at hd

/-- C5: when `CODEALIVE_BASE_URL` is set, every JSON adapter's
generated entry carries it in the environment map (next to
`CODEALIVE_API_KEY`) and both CLI adapters pass the corresponding
`KEY=value` assignment argument; when unset, the environment map has
no `CODEALIVE_BASE_URL` key at all and no CLI argument names it. -/
theorem C5_base_url_env (a : JsonAdapter) (_ha : a ∈ jsonAdapters)
    (apiKey u : String) :
    (∃ envFields,
       lookupField (entryFields (a.getServerConfig apiKey (some u)))
         a.envFieldName = some (Json.obj envFields) ∧
       lookupField envFields "CODEALIVE_API_KEY" = some (Json.str apiKey) ∧
       lookupField envFields "CODEALIVE_BASE_URL" = some (Json.str u)) ∧
    (∃ envFields,
       lookupField (entryFields (a.getServerConfig apiKey none))
         a.envFieldName = some (Json.obj envFields) ∧
       lookupField envFields "CODEALIVE_API_KEY" = some (Json.str apiKey) ∧
       lookupField envFields "CODEALIVE_BASE_URL" = none) ∧
    ("CODEALIVE_BASE_URL=" ++ u) ∈ claudeAddArgs apiKey (some u) ∧
    (∀ x ∈ claudeAddArgs apiKey none, ∀ v, x ≠ "CODEALIVE_BASE_URL=" ++ v) ∧
    ("CODEALIVE_BASE_URL=" ++ u) ∈ codexAddArgs apiKey (some u) ∧
    (∀ x ∈ codexAddArgs apiKey none, ∀ v, x ≠ "CODEALIVE_BASE_URL=" ++ v) := by
  refine ⟨?_, ?_, ?_, ?_, ?_, ?_⟩
  · fin_cases _ha <;>
      exact ⟨envFieldsList apiKey (some u), rfl, rfl, rfl⟩
  · fin_cases _ha <;>
      exact ⟨envFieldsList apiKey none, rfl, rfl, rfl⟩
  · simp [claudeAddArgs, claudeBaseArgs, MCP_SERVER_NAME, MCP_COMMAND,
      MCP_ARGS]
  · intro x hx v
    simp only [claudeAddArgs, claudeBaseArgs, MCP_SERVER_NAME, MCP_COMMAND,
      MCP_ARGS, List.cons_append, List.nil_append, List.mem_cons,
      List.not_mem_nil, or_false] at hx
    rcases hx with rfl | rfl | rfl | rfl | rfl | rfl | rfl | rfl | rfl | rfl <;>
      first
        | exact apiKeyAssign_ne_baseUrlAssign apiKey v
        | exact ne_baseUrlAssign_of_short _ (by decide) v
  · simp [codexAddArgs, MCP_SERVER_NAME, MCP_COMMAND, MCP_ARGS]
  · intro x hx v
    simp only [codexAddArgs, MCP_SERVER_NAME, MCP_COMMAND, MCP_ARGS,
      List.cons_append, List.nil_append, List.append_nil, List.mem_cons,
      List.not_mem_nil, or_false] at hx
    rcases hx with rfl | rfl | rfl | rfl | rfl | rfl | rfl | rfl <;>
      first
        | exact apiKeyAssign_ne_baseUrlAssign apiKey v
        | exact ne_baseUrlAssign_of_short _ (by decide) v

/-- C5 witness: the OpenCode adapter (whose environment lives under
`environment`) with and without the base-URL override. -/
theorem C5_base_url_env_witness :
    (∃ envFields,
       lookupField
         (entryFields (opencodeAdapter.getServerConfig "test-key"
           (some "https://self-hosted.example.com")))
         opencodeAdapter.envFieldName = some (Json.obj envFields) ∧
       lookupField envFields "CODEALIVE_API_KEY"
         = some (Json.str "test-key") ∧
       lookupField envFields "CODEALIVE_BASE_URL"
         = some (Json.str "https://self-hosted.example.com")) ∧
    (∃ envFields,
       lookupField
         (entryFields (opencodeAdapter.getServerConfig "test-key" none))
         opencodeAdapter.envFieldName = some (Json.obj envFields) ∧
       lookupField envFields "CODEALIVE_API_KEY"
         = some (Json.str "test-key") ∧
       lookupField envFields "CODEALIVE_BASE_URL" = none) ∧
    ("CODEALIVE_BASE_URL=" ++ "https://self-hosted.example.com")
      ∈ claudeAddArgs "test-key" (some "https://self-hosted.example.com") ∧
    (∀ x ∈ claudeAddArgs "test-key" none, ∀ v,
      x ≠ "CODEALIVE_BASE_URL=" ++ v) ∧
    ("CODEALIVE_BASE_URL=" ++ "https://self-hosted.example.com")
      ∈ codexAddArgs "test-key" (some "https://self-hosted.example.com") ∧
    (∀ x ∈ codexAddArgs "test-key" none, ∀ v,
      x ≠ "CODEALIVE_BASE_URL=" ++ v) :=
  C5_base_url_env opencodeAdapter (by simp [jsonAdapters]) "test-key"
    "https://self-hosted.example.com"

end CodealiveInstaller
